import Mathlib

/-!
Shallow embedding of the core of the bxcommon relay library, with theorems
checking the natural-language specification against the code.

The embedding covers:
* ordered dictionaries (Python `dict` / `OrderedDict` semantics) as
  association lists,
* `ExpirationQueue` (`bxcommon/utils/expiration_queue.py`),
* `TransactionService` (`bxcommon/services/transaction_service.py`),
* the per-connection message-processing state machine
  (`bxcommon/connections/abstract_connection.py`),
* `BloxrouteMessageValidator`
  (`bxcommon/messages/bloxroute/bloxroute_message_validator.py`),
* `AbstractVersionManager.get_connection_protocol_version`
  (`bxcommon/messages/versioning/abstract_version_manager.py`).

Transaction hashes / cache keys, short ids, block hashes and bytes are all
modelled as `Nat`; byte strings as `List Nat`; Python `int` arithmetic that
may go negative uses `Int`.
-/

namespace Bx

/-! ## Ordered dictionaries as association lists

Python `dict` (3.7+) and `collections.OrderedDict` preserve insertion order.
Assigning to an existing key updates the value *in place* (the key keeps its
position); assigning a fresh key appends it at the end; `del` removes the key.
-/

/-- First value bound to key `k`, scanning in insertion order. -/
def odLookup (k : Nat) : List (Nat × α) → Option α
  | [] => none
  | p :: rest => if p.1 = k then some p.2 else odLookup k rest

/-- Python `k in d`. -/
def odContains (k : Nat) (l : List (Nat × α)) : Bool :=
  (odLookup k l).isSome

/-- Python `d[k] = v`: update in place if present, else append at the end. -/
def odSet (k : Nat) (v : α) : List (Nat × α) → List (Nat × α)
  | [] => [(k, v)]
  | p :: rest => if p.1 = k then (k, v) :: rest else p :: odSet k v rest

/-- Python `del d[k]` (guarded by a containment check in the source, so an
absent key is a no-op). -/
def odErase (k : Nat) : List (Nat × α) → List (Nat × α)
  | [] => []
  | p :: rest => if p.1 = k then odErase k rest else p :: odErase k rest

/-- The keys, in insertion order. -/
def odKeys (l : List (Nat × α)) : List Nat :=
  l.map Prod.fst

/-! ## Sizes of stored transaction contents -/

/-- Sum of `len(contents)` over an association list, as tracked by
`total_tx_contents_size`. -/
def contentsSize : List (Nat × List Nat) → Int
  | [] => 0
  | p :: rest => (p.2.length : Int) + contentsSize rest

/-- `len(self._tx_cache_key_to_contents[key])` when present, `0` otherwise
(the `previous_size` computation in `set_transaction_contents`). -/
def prevContentsSize (k : Nat) (l : List (Nat × List Nat)) : Int :=
  match odLookup k l with
  | some c => (c.length : Int)
  | none => 0

/-! ## ExpirationQueue (`bxcommon/utils/expiration_queue.py`)

The queue is a Python `OrderedDict` from item to the timestamp recorded by
`add`; `add` assigns `self.queue[item] = time.time()`. -/

structure ExpirationQueueModel where
  timeToLiveSec : Nat
  queue : List (Nat × Nat)
  deriving Repr, DecidableEq

namespace ExpirationQueueModel

/-- `ExpirationQueue.add`: `self.queue[item] = time.time()`. -/
def add (q : ExpirationQueueModel) (item now : Nat) : ExpirationQueueModel :=
  { q with queue := odSet item now q.queue }

/-- `ExpirationQueue.remove`. -/
def removeItem (q : ExpirationQueueModel) (item : Nat) : ExpirationQueueModel :=
  { q with queue := odErase item q.queue }

/-- Iteration order of the queue (iteration over an `OrderedDict` yields keys
in order). -/
def iterationOrder (q : ExpirationQueueModel) : List Nat :=
  odKeys q.queue

end ExpirationQueueModel

/-! ## Constants (`bxcommon/constants.py`) -/

/-- `NULL_TX_SID = 0`. -/
def NULL_TX_SID : Nat := 0

/-- `MAX_BAD_MESSAGES = 3`. -/
def MAX_BAD_MESSAGES : Nat := 3

/-- `MIN_CLEAN_UP_EXPIRED_TXS_TASK_INTERVAL_S = 1 * 60`. -/
def MIN_CLEAN_UP_EXPIRED_TXS_TASK_INTERVAL_S : Nat := 60

/-- `STARTING_SEQUENCE_BYTES = bytearray(b"\xFF\xFE\xFD\xFC")`. -/
def STARTING_SEQUENCE_BYTES : List Nat := [255, 254, 253, 252]

/-- `STARTING_SEQUENCE_BYTES_LEN = 4`. -/
def STARTING_SEQUENCE_BYTES_LEN : Nat := 4

/-- `CONTROL_FLAGS_LEN = 1`. -/
def CONTROL_FLAGS_LEN : Nat := 1

/-- `BX_HDR_COMMON_OFF = 16`. -/
def BX_HDR_COMMON_OFF : Nat := 16

/-- `MSG_TYPE_LEN = 12`. -/
def MSG_TYPE_LEN : Nat := 12

/-- `VERSION_NUM_LEN = 4` (an unsigned int). -/
def VERSION_NUM_LEN : Nat := 4

/-- `DEFAULT_MAX_PAYLOAD_LEN_BYTES = 1024 * 1024`. -/
def DEFAULT_MAX_PAYLOAD_LEN_BYTES : Nat := 1024 * 1024

/-! ## TransactionService (`bxcommon/services/transaction_service.py`)

Cache keys (hex strings of transaction hashes), short ids, block hashes and
timestamps are modelled as `Nat`; transaction contents as `List Nat`.
`_tx_hash_to_cache_key` is an injection from hashes to cache keys, so hashes
are identified with their cache keys. -/

structure TxService where
  /-- `_tx_cache_key_to_short_ids` (`defaultdict(set)`); the set is modelled
  as the list of its elements, added in insertion order, no duplicates. -/
  txCacheKeyToShortIds : List (Nat × List Nat)
  /-- `_short_id_to_tx_cache_key`. -/
  shortIdToTxCacheKey : List (Nat × Nat)
  /-- `_tx_cache_key_to_contents`. -/
  txCacheKeyToContents : List (Nat × List Nat)
  /-- `_tx_assignment_expire_queue.queue`: short id to assignment timestamp,
  `OrderedDict` semantics. -/
  txAssignmentExpireQueue : List (Nat × Nat)
  /-- `_short_ids_seen_in_block` (`OrderedDict`): block hash to short ids. -/
  shortIdsSeenInBlock : List (Nat × List Nat)
  /-- `_total_tx_contents_size`. -/
  totalTxContentsSize : Int
  /-- `_total_tx_removed_by_memory_limit`. -/
  totalTxRemovedByMemoryLimit : Nat
  /-- `_tx_content_memory_limit`. -/
  txContentMemoryLimit : Nat
  /-- `_final_tx_confirmations_count`. -/
  finalTxConfirmationsCount : Nat
  /-- `node.opts.sid_expire_time` (also the expiration queue's TTL). -/
  sidExpireTime : Nat
  /-- `tx_assign_alarm_scheduled`. -/
  txAssignAlarmScheduled : Bool
  /-- Number of `alarm_queue.register_alarm` calls made so far (ghost
  observer for frame conditions). -/
  alarmRegistrations : Nat
  deriving Repr, DecidableEq

namespace TxService

/-- `self._tx_cache_key_to_short_ids[transaction_cache_key].add(short_id)` on
the `defaultdict(set)`. -/
def addShortIdToSet (k sid : Nat) (l : List (Nat × List Nat)) :
    List (Nat × List Nat) :=
  match odLookup k l with
  | some sids => odSet k (if sid ∈ sids then sids else sids ++ [sid]) l
  | none => l ++ [(k, [sid])]

/-- `TransactionService.assign_short_id(transaction_hash, short_id)` at time
`now`. -/
def assignShortId (s : TxService) (txHash sid now : Nat) : TxService :=
  if sid = NULL_TX_SID then s
  else
    let s1 := { s with
      txCacheKeyToShortIds := addShortIdToSet txHash sid s.txCacheKeyToShortIds,
      shortIdToTxCacheKey := odSet sid txHash s.shortIdToTxCacheKey,
      txAssignmentExpireQueue := odSet sid now s.txAssignmentExpireQueue }
    if s1.txAssignAlarmScheduled then s1
    else { s1 with
      txAssignAlarmScheduled := true,
      alarmRegistrations := s1.alarmRegistrations + 1 }

/-- `TransactionService.get_short_ids(transaction_hash)`. -/
def getShortIds (s : TxService) (txHash : Nat) : List Nat :=
  match odLookup txHash s.txCacheKeyToShortIds with
  | some sids => sids
  | none => [NULL_TX_SID]

/-- One step of the `for dup_short_id in short_ids` loop inside
`remove_transaction_by_short_id` (body guarded by `dup_short_id != short_id`). -/
def removeSiblingShortId (sid : Nat) (s : TxService) (dup : Nat) : TxService :=
  if dup ≠ sid then
    { s with
      shortIdToTxCacheKey := odErase dup s.shortIdToTxCacheKey,
      txAssignmentExpireQueue := odErase dup s.txAssignmentExpireQueue }
  else s

/-- `TransactionService.remove_transaction_by_short_id(short_id,
remove_related_short_ids)`. -/
def removeTransactionByShortId (s : TxService) (sid : Nat)
    (removeRelated : Bool) : TxService :=
  let s4 :=
    match odLookup sid s.shortIdToTxCacheKey with
    | none => s
    | some key =>
      let s1 := { s with shortIdToTxCacheKey := odErase sid s.shortIdToTxCacheKey }
      match odLookup key s1.txCacheKeyToShortIds with
      | none => s1
      | some sids =>
        if sids.length = 1 ∨ removeRelated then
          let s2 := sids.foldl (removeSiblingShortId sid) s1
          let s3 :=
            match odLookup key s2.txCacheKeyToContents with
            | some contents =>
              { s2 with
                totalTxContentsSize := s2.totalTxContentsSize - contents.length,
                txCacheKeyToContents := odErase key s2.txCacheKeyToContents }
            | none => s2
          { s3 with txCacheKeyToShortIds := odErase key s3.txCacheKeyToShortIds }
        else
          { s1 with
            txCacheKeyToShortIds := odSet key (sids.erase sid) s1.txCacheKeyToShortIds }
  { s4 with txAssignmentExpireQueue := odErase sid s4.txAssignmentExpireQueue }

/-- One step of the `for short_id in short_ids` loop inside
`remove_transaction_by_tx_hash`. -/
def removeAssignedShortId (s : TxService) (sid : Nat) : TxService :=
  { s with
    shortIdToTxCacheKey := odErase sid s.shortIdToTxCacheKey,
    txAssignmentExpireQueue := odErase sid s.txAssignmentExpireQueue }

/-- The `if transaction_cache_key in self._tx_cache_key_to_contents` block of
`remove_transaction_by_tx_hash`: drop the contents entry and subtract its
length from the running size. -/
def removeContentsEntry (s : TxService) (txHash : Nat) : TxService :=
  match odLookup txHash s.txCacheKeyToContents with
  | some contents =>
    { s with
      totalTxContentsSize := s.totalTxContentsSize - contents.length,
      txCacheKeyToContents := odErase txHash s.txCacheKeyToContents }
  | none => s

/-- `TransactionService.remove_transaction_by_tx_hash(transaction_hash)`;
returns the new state and the popped short-id set. -/
def removeTransactionByTxHash (s : TxService) (txHash : Nat) :
    TxService × Option (List Nat) :=
  match odLookup txHash s.txCacheKeyToShortIds with
  | some sids =>
    let s0 := { s with txCacheKeyToShortIds := odErase txHash s.txCacheKeyToShortIds }
    (removeContentsEntry (sids.foldl removeAssignedShortId s0) txHash, some sids)
  | none => (removeContentsEntry s txHash, none)

/-- `_is_exceeding_memory_limit`. -/
def isExceedingMemoryLimit (s : TxService) : Bool :=
  s.totalTxContentsSize > (s.txContentMemoryLimit : Int)

/-- `ExpirationQueue.remove_oldest` with
`remove_callback=self.remove_transaction_by_short_id`: pop the queue's head,
then invoke the callback on the popped item. -/
def removeOldestFromQueue (s : TxService) : TxService :=
  match s.txAssignmentExpireQueue with
  | [] => s
  | (sid, _) :: rest =>
    removeTransactionByShortId
      { s with txAssignmentExpireQueue := rest } sid false

/-- `_clear`: clears the three maps and the seen-in-block ring and zeroes the
running contents size (the expiration queue is left as is). -/
def clearService (s : TxService) : TxService :=
  { s with
    txCacheKeyToContents := [],
    txCacheKeyToShortIds := [],
    shortIdToTxCacheKey := [],
    shortIdsSeenInBlock := [],
    totalTxContentsSize := 0 }

/-- The `while self._is_exceeding_memory_limit() and
self._tx_assignment_expire_queue:` loop of `_memory_limit_clean_up`, also
counting removals (`removed_tx_count`). Structured with explicit fuel; each
iteration strictly shrinks the queue (`removeOldestFromQueue_queue_lt`), so
fuel equal to the queue length (as supplied by `memoryCleanupLoop`) never
runs out. -/
def memoryCleanupGo : Nat → TxService → Nat → TxService × Nat
  | 0, s, count => (s, count)
  | fuel + 1, s, count =>
    if isExceedingMemoryLimit s ∧ s.txAssignmentExpireQueue ≠ [] then
      memoryCleanupGo fuel (removeOldestFromQueue s) (count + 1)
    else (s, count)

/-- The cleanup loop entered with enough fuel for its queue. -/
def memoryCleanupLoop (s : TxService) (count : Nat) : TxService × Nat :=
  memoryCleanupGo s.txAssignmentExpireQueue.length s count

/-- `TransactionService._memory_limit_clean_up`. -/
def memoryLimitCleanUp (s : TxService) : TxService :=
  if ¬ isExceedingMemoryLimit s then s
  else
    let loopResult := memoryCleanupLoop s 0
    if isExceedingMemoryLimit loopResult.1 ∧
        loopResult.1.txAssignmentExpireQueue = [] then
      { clearService loopResult.1 with
        totalTxRemovedByMemoryLimit :=
          loopResult.1.totalTxRemovedByMemoryLimit +
            (loopResult.2 + loopResult.1.txCacheKeyToContents.length) }
    else
      { loopResult.1 with
        totalTxRemovedByMemoryLimit :=
          loopResult.1.totalTxRemovedByMemoryLimit + loopResult.2 }

/-- `TransactionService.set_transaction_contents(transaction_hash,
transaction_contents)`. -/
def setTransactionContents (s : TxService) (txHash : Nat)
    (contents : List Nat) : TxService :=
  let s1 := { s with
    txCacheKeyToContents := odSet txHash contents s.txCacheKeyToContents,
    totalTxContentsSize :=
      s.totalTxContentsSize + contents.length - prevContentsSize txHash s.txCacheKeyToContents }
  memoryLimitCleanUp s1

/-- `TransactionService.track_seen_short_ids(block_hash, short_ids)`. -/
def trackSeenShortIds (s : TxService) (blockHash : Nat) (sids : List Nat) :
    TxService :=
  let s1 := { s with shortIdsSeenInBlock := odSet blockHash sids s.shortIdsSeenInBlock }
  if s1.shortIdsSeenInBlock.length ≥ s1.finalTxConfirmationsCount then
    match s1.shortIdsSeenInBlock with
    | [] => s1
    | (_, finalSids) :: rest =>
      finalSids.foldl (fun acc sid => removeTransactionByShortId acc sid true)
        { s1 with shortIdsSeenInBlock := rest }
  else s1

/-- The `while` loop of `ExpirationQueue.remove_expired` with
`remove_callback=self.remove_transaction_by_short_id` (as called from
`expire_old_assignments`). Structured with explicit fuel; each iteration
pops the queue's head and the callback can only remove further entries, so
fuel equal to the queue length (as supplied by `removeExpiredLoop`) never
runs out. -/
def removeExpiredGo : Nat → TxService → Nat → TxService
  | 0, s, _ => s
  | fuel + 1, s, now =>
    match s.txAssignmentExpireQueue with
    | [] => s
    | (sid, ts) :: rest =>
      if (now : Int) - ts > (s.sidExpireTime : Int) then
        removeExpiredGo fuel
          (removeTransactionByShortId
            { s with txAssignmentExpireQueue := rest } sid false) now
      else s

/-- The expiry loop entered with enough fuel for its queue. -/
def removeExpiredLoop (s : TxService) (now : Nat) : TxService :=
  removeExpiredGo s.txAssignmentExpireQueue.length s now

/-- `TransactionService.expire_old_assignments()` at time `now`; returns the
new state and the alarm reschedule value (`0` is `CANCEL_ALARMS`). -/
def expireOldAssignments (s : TxService) (now : Nat) : TxService × Int :=
  let s1 := removeExpiredLoop s now
  match s1.txAssignmentExpireQueue with
  | (_, ts) :: _ =>
    (s1, max ((ts : Int) + s1.sidExpireTime - now)
         (MIN_CLEAN_UP_EXPIRED_TXS_TASK_INTERVAL_S : Int))
  | [] => ({ s1 with txAssignAlarmScheduled := false }, 0)

/-! ### Content-byte accounting -/

/-- The keys of `_tx_cache_key_to_contents` are pairwise distinct (as they
are in any Python dict). -/
def ContentsNodup (s : TxService) : Prop :=
  (odKeys s.txCacheKeyToContents).Nodup

/-- `total_tx_contents_size` equals the sum of `len(contents)` over
`_tx_cache_key_to_contents`. -/
def Accounting (s : TxService) : Prop :=
  s.totalTxContentsSize = contentsSize s.txCacheKeyToContents

/-- The accounting invariant together with key uniqueness. -/
def AcctInv (s : TxService) : Prop :=
  ContentsNodup s ∧ Accounting s

instance (s : TxService) : Decidable (ContentsNodup s) := by
  unfold ContentsNodup; infer_instance

instance (s : TxService) : Decidable (Accounting s) := by
  unfold Accounting; infer_instance

instance (s : TxService) : Decidable (AcctInv s) := by
  unfold AcctInv; infer_instance

/-! ### Evolution of the seen-in-block ring -/

/-- The effect of one `track_seen_short_ids` call on the
`_short_ids_seen_in_block` ring alone. -/
def ringStep (c : Nat) (r : List (Nat × List Nat)) (b : Nat × List Nat) :
    List (Nat × List Nat) :=
  let r1 := odSet b.1 b.2 r
  if r1.length ≥ c then r1.tail else r1

end TxService

/-! ## Connection message processing
(`bxcommon/connections/abstract_connection.py`)

`ConnectionState` is modelled from the spec: a bitmask with flags
`CONNECTING = 0`, `INITIALIZED`, `HELLO_RECVD`, `HELLO_ACKD`,
`ESTABLISHED = INITIALIZED | HELLO_RECVD | HELLO_ACKD`, and
`MARK_FOR_CLOSE` (the file `connection_state.py` is not part of the
sources; only the flag set and bitmask semantics from the spec are used). -/

structure ConnectionState where
  initialized : Bool
  helloRecvd : Bool
  helloAckd : Bool
  markForClose : Bool
  deriving Repr, DecidableEq

namespace ConnectionState

/-- `CONNECTING = 0`: the empty bitmask. -/
def connecting : ConnectionState :=
  ⟨false, false, false, false⟩

/-- `state & ESTABLISHED == ESTABLISHED`. -/
def established (st : ConnectionState) : Bool :=
  st.initialized && st.helloRecvd && st.helloAckd

/-- `state |= MARK_FOR_CLOSE` (`mark_for_close`). -/
def withMarkForClose (st : ConnectionState) : ConnectionState :=
  { st with markForClose := true }

end ConnectionState

/-- Classification of the outcome of one iteration of the `while True` loop
in `AbstractConnection.process_message`, as decided by the header preview,
the validator, the factory and the handler for the message at the head of
the input buffer. -/
inductive MsgEvent where
  /-- `is_full_msg` is false and validation passed: the loop breaks. -/
  | incomplete : MsgEvent
  /-- `MessageValidationError` raised on a partial message. -/
  | invalidPartial : MsgEvent
  /-- `MessageValidationError` raised on a full message. -/
  | invalidFull : MsgEvent
  /-- `PayloadLenError` raised while popping/parsing. -/
  | payloadLenFailure : MsgEvent
  /-- The factory returned `None` for the popped frame (parse error). -/
  | parseFailure : MsgEvent
  /-- `UnauthorizedMessageError` raised. -/
  | unauthorized : MsgEvent
  /-- A full message of type `msgType` was parsed successfully. -/
  | valid (msgType : Nat) : MsgEvent
  deriving Repr, DecidableEq

/-- The per-peer connection state relevant to message processing and
enqueueing: state bitmask, consecutive bad-message counter, the output
buffer (a FIFO of frames), the handshake message-type whitelist
(`hello_messages`), and an abstract component for any other state handlers
may touch. -/
structure Conn where
  state : ConnectionState
  numBadMessages : Nat
  outputBuf : List (List Nat)
  helloTypes : List Nat
  handlerState : Nat
  deriving Repr, DecidableEq

namespace Conn

/-- `AbstractConnection._report_bad_message`: returns the updated connection
and whether the connection should be closed (`True` after marking). -/
def reportBadMessage (c : Conn) : Conn × Bool :=
  if c.numBadMessages = MAX_BAD_MESSAGES then
    ({ c with state := c.state.withMarkForClose }, true)
  else
    ({ c with numBadMessages := c.numBadMessages + 1 }, false)

/-- `AbstractConnection.process_message`: the `while True` loop, driven by
the classified per-iteration outcomes for the frames on the input buffer.
`handler` is the entry of `message_handlers` for a message type (it may
update the connection arbitrarily, as subclass handlers do). Returns the
final connection and the list of message types dispatched to handlers, in
order. -/
def processEvents (handler : Nat → Conn → Conn) (c : Conn)
    (evs : List MsgEvent) : Conn × List Nat :=
    if c.state.markForClose then (c, [])
    else
      match evs with
      | [] => (c, [])
      | e :: rest =>
        match e with
        | .incomplete => (c, [])
        | .invalidPartial => ({ c with state := c.state.withMarkForClose }, [])
        | .payloadLenFailure => ({ c with state := c.state.withMarkForClose }, [])
        | .invalidFull =>
          let r := reportBadMessage c
          if r.2 then (r.1, []) else processEvents handler r.1 rest
        | .parseFailure =>
          let r := reportBadMessage c
          if r.2 then (r.1, []) else processEvents handler r.1 rest
        | .unauthorized =>
          let r := reportBadMessage c
          if r.2 then (r.1, []) else processEvents handler r.1 rest
        | .valid t =>
          if ¬ c.state.established ∧ t ∉ c.helloTypes then
            ({ c with state := c.state.withMarkForClose }, [])
          else
            let c1 := handler t c
            let r := processEvents handler { c1 with numBadMessages := 0 } rest
            (r.1, t :: r.2)

/-- `AbstractConnection.enqueue_msg_bytes`. -/
def enqueueMsgBytes (c : Conn) (msgBytes : List Nat) (prepend : Bool) : Conn :=
  if c.state.markForClose then c
  else if prepend then { c with outputBuf := msgBytes :: c.outputBuf }
  else { c with outputBuf := c.outputBuf ++ [msgBytes] }

/-- `AbstractConnection.enqueue_msg`: frames the message and delegates to
`enqueue_msg_bytes`. -/
def enqueueMsg (c : Conn) (msgBytes : List Nat) (prepend : Bool) : Conn :=
  enqueueMsgBytes c msgBytes prepend

/-- The throttled failure outcomes: each increments the bad-message counter
through `_report_bad_message` (construction failure, full-message validation
failure, unauthorized message). -/
def throttled (e : MsgEvent) : Prop :=
  e = .invalidFull ∨ e = .parseFailure ∨ e = .unauthorized

instance (e : MsgEvent) : Decidable (throttled e) := by
  unfold throttled; infer_instance

end Conn

/-! ## BloxrouteMessageValidator
(`bxcommon/messages/bloxroute/bloxroute_message_validator.py`)

The input buffer is modelled as the flat byte sequence it holds
(`input_buffer.py` is not part of the sources; the spec describes it as an
ordered sequence of byte chunks with whole-buffer slicing, so
`input_buffer[a:b]` slices the full contents and `input_buffer[-1:]` is the
buffer's final byte). `BloxrouteMessageControlFlags.VALID` is modelled from
the spec: a trailing control-flags byte whose bit 0 is `VALID`. -/

/-- Modelled from the spec: `BloxrouteMessageControlFlags.VALID` is bit 0 of
the control-flags byte (`bloxroute_message_control_flags.py` is not part of
the sources). -/
def VALID_CONTROL_FLAG : Nat := 1

/-- The message-type labels distinguished by `_validate_payload_length`
(modelled from the spec's message-type list: `tx`, `broadcast`, `txs`;
`bloxroute_message_type.py` is not part of the sources). -/
inductive BxMsgType where
  | transaction : BxMsgType
  | broadcast : BxMsgType
  | transactions : BxMsgType
  | other (code : Nat) : BxMsgType
  deriving Repr, DecidableEq

/-- The distinct raise sites of `MessageValidationError` inside
`BloxrouteMessageValidator`, plus a marker for the Python crash paths that
the validator itself cannot reach with well-formed arguments. -/
inductive ValidationFailure where
  /-- Raised by `_validate_starting_sequence`. -/
  | startingSequence : ValidationFailure
  /-- Raised by `_validate_payload_length`. -/
  | payloadLength : ValidationFailure
  /-- Raised by `_validate_control_flags` when
  `input_buffer.length < header_len + payload_len`. -/
  | controlFlagsUnavailable : ValidationFailure
  /-- Raised by `_validate_control_flags` when the checked byte lacks the
  `VALID` bit. -/
  | controlFlagsNotValid : ValidationFailure
  /-- Python `TypeError`/`IndexError` path (unreachable for the argument
  combinations produced by `process_message`). -/
  | runtimeFault : ValidationFailure
  deriving Repr, DecidableEq

/-- `MessageValidationSettings`. -/
structure MessageValidationSettings where
  maxTxSizeBytes : Nat
  maxBlockSizeBytes : Nat
  deriving Repr, DecidableEq

/-- `BloxrouteMessageValidator._validate_starting_sequence`. -/
def validateStartingSequence (buf : List Nat) : Except ValidationFailure Unit :=
  if buf.length < STARTING_SEQUENCE_BYTES_LEN then .ok ()
  else if buf.take STARTING_SEQUENCE_BYTES_LEN ≠ STARTING_SEQUENCE_BYTES then
    .error .startingSequence
  else .ok ()

/-- `BloxrouteMessageValidator._validate_payload_length`. -/
def validatePayloadLength (settings : MessageValidationSettings)
    (msgType : Option BxMsgType) (payloadLen : Option Nat) :
    Except ValidationFailure Unit :=
  match msgType, payloadLen with
  | none, _ => .ok ()
  | _, none => .ok ()
  | some t, some len =>
    match t with
    | .transaction =>
      if len > settings.maxTxSizeBytes then .error .payloadLength else .ok ()
    | .broadcast =>
      if len > settings.maxBlockSizeBytes then .error .payloadLength else .ok ()
    | .transactions =>
      if len > settings.maxBlockSizeBytes then .error .payloadLength else .ok ()
    | .other _ =>
      if len > DEFAULT_MAX_PAYLOAD_LEN_BYTES then .error .payloadLength else .ok ()

/-- `BloxrouteMessageValidator._validate_control_flags`: checks
`input_buffer[-CONTROL_FLAGS_LEN:]`, i.e. the final byte of the whole input
buffer. -/
def validateControlFlags (isFull : Bool) (headerLen : Nat)
    (payloadLen : Option Nat) (buf : List Nat) : Except ValidationFailure Unit :=
  if ¬ isFull then .ok ()
  else
    match payloadLen with
    | none => .error .runtimeFault
    | some plen =>
      if buf.length < headerLen + plen then .error .controlFlagsUnavailable
      else
        match buf.getLast? with
        | none => .error .runtimeFault
        | some b =>
          if b &&& VALID_CONTROL_FLAG ≠ 0 then .ok ()
          else .error .controlFlagsNotValid

/-- `STARTING_SEQUENCE_CONTROL_FLAGS_FIRST_VERSION = 4`. -/
def STARTING_SEQUENCE_CONTROL_FLAGS_FIRST_VERSION : Nat := 4

/-- `BloxrouteMessageValidator.validate` for a validator constructed with
`connection_protocol_version = protocolVersion`. -/
def bloxrouteValidate (protocolVersion : Nat)
    (settings : MessageValidationSettings) (isFull : Bool)
    (msgType : Option BxMsgType) (headerLen : Nat) (payloadLen : Option Nat)
    (buf : List Nat) : Except ValidationFailure Unit := do
  if protocolVersion > STARTING_SEQUENCE_CONTROL_FLAGS_FIRST_VERSION then
    validateStartingSequence buf
  validatePayloadLength settings msgType payloadLen
  if protocolVersion > STARTING_SEQUENCE_CONTROL_FLAGS_FIRST_VERSION then
    validateControlFlags isFull headerLen payloadLen buf

/-! ## AbstractVersionManager
(`bxcommon/messages/versioning/abstract_version_manager.py`)

`VersionMessage` framing is modelled from the spec (`version_message.py` and
`message.py` are not part of the sources): a v5+ frame is 4 starting-sequence
bytes, a 12-byte null-padded type, and a 4-byte little-endian payload length
(header length 20); `VersionMessageV4` (in the sources) has no starting
sequence (header length `BX_HDR_COMMON_OFF = 16`). -/

/-- Strip trailing null bytes (`command.rstrip(constants.MSG_NULL_BYTE)`). -/
def rstripNull (l : List Nat) : List Nat :=
  (l.reverse.dropWhile (· = 0)).reverse

/-- Little-endian 32-bit read (`struct.unpack_from("<L", buf, off)`). -/
def readLE32 (l : List Nat) : Nat :=
  l.getD 0 0 + 256 * l.getD 1 0 + 65536 * l.getD 2 0 + 16777216 * l.getD 3 0

/-- Modelled from the spec: `VersionMessage.HEADER_LENGTH` for the current
frame (starting sequence + common header). -/
def VERSION_MESSAGE_HEADER_LENGTH : Nat :=
  STARTING_SEQUENCE_BYTES_LEN + BX_HDR_COMMON_OFF

/-- `MessageV4.HEADER_LENGTH`. -/
def V4_HEADER_LENGTH : Nat := BX_HDR_COMMON_OFF

/-- The command returned by `VersionMessage.unpack` on the peeked header
(modelled from the spec: the 12-byte type sits after the 4-byte starting
sequence, null-padded). -/
def versionMessageCommandOf (headerBuf : List Nat) : List Nat :=
  rstripNull ((headerBuf.drop STARTING_SEQUENCE_BYTES_LEN).take MSG_TYPE_LEN)

/-- The payload length returned by `VersionMessage.unpack` (little-endian
u32 after the type field). -/
def versionMessagePayloadLenOf (headerBuf : List Nat) : Nat :=
  readLE32 ((headerBuf.drop (STARTING_SEQUENCE_BYTES_LEN + MSG_TYPE_LEN)).take 4)

/-- `MessageV4.unpack`'s command (`struct.unpack_from("<12sL", buf)`,
null-stripped). -/
def v4CommandOf (headerBuf : List Nat) : List Nat :=
  rstripNull (headerBuf.take MSG_TYPE_LEN)

/-- `MessageV4.unpack`'s payload length. -/
def v4PayloadLenOf (headerBuf : List Nat) : Nat :=
  readLE32 ((headerBuf.drop MSG_TYPE_LEN).take 4)

/-- The version-manager state consulted by
`get_connection_protocol_version`: the class constant
`MIN_SUPPORTED_PROTOCOL_VERSION`, the subclass-provided
`version_message_command`, and `VERSION_MESSAGE_MAIN_LENGTH`
(`VersionMessage.BASE_LENGTH`). -/
structure VersionManagerModel where
  minSupportedProtocolVersion : Int
  versionMessageCommand : List Nat
  versionMessageMainLength : Nat
  deriving Repr, DecidableEq

namespace VersionManagerModel

/-- `AbstractVersionManager.is_protocol_supported`. -/
def isProtocolSupported (vm : VersionManagerModel) (protocolVersion : Int) :
    Bool :=
  protocolVersion ≥ vm.minSupportedProtocolVersion

/-- The command of the first framed message on the buffer, extracted the way
`get_connection_protocol_version` does: peek `VersionMessage.HEADER_LENGTH`
bytes, then unpack with the current framing if the starting sequence
matches, else with the v4 framing. -/
def firstFrameCommand (buf : List Nat) : List Nat :=
  let headerBuf := buf.take VERSION_MESSAGE_HEADER_LENGTH
  if headerBuf.take STARTING_SEQUENCE_BYTES_LEN = STARTING_SEQUENCE_BYTES then
    versionMessageCommandOf headerBuf
  else
    v4CommandOf headerBuf

/-- `AbstractVersionManager.get_connection_protocol_version`. -/
def getConnectionProtocolVersion (vm : VersionManagerModel)
    (buf : List Nat) : Option Int :=
  if buf.length < STARTING_SEQUENCE_BYTES_LEN + BX_HDR_COMMON_OFF + VERSION_NUM_LEN then
    none
  else
    let headerBuf := buf.take VERSION_MESSAGE_HEADER_LENGTH
    let usesCurrentFraming :=
      headerBuf.take STARTING_SEQUENCE_BYTES_LEN = STARTING_SEQUENCE_BYTES
    let payloadLen :=
      if usesCurrentFraming then versionMessagePayloadLenOf headerBuf
      else v4PayloadLenOf headerBuf
    let headerLen :=
      if usesCurrentFraming then VERSION_MESSAGE_HEADER_LENGTH
      else V4_HEADER_LENGTH
    if firstFrameCommand buf ≠ vm.versionMessageCommand then
      some (vm.minSupportedProtocolVersion - 1)
    else if payloadLen < vm.versionMessageMainLength then
      some 1
    else
      some ((readLE32 ((buf.drop headerLen).take VERSION_NUM_LEN) : Int))

end VersionManagerModel

/-! ## Concrete states used by the example-based theorems -/

namespace TxService

/-- A fresh transaction service with the given memory limit, final
confirmations count and sid TTL (all maps empty, as after `__init__`). -/
def emptyService (limit confirmations ttl : Nat) : TxService :=
  ⟨[], [], [], [], [], 0, 0, limit, confirmations, ttl, false, 0⟩

/-- The spec's memory-eviction scenario: limit 1000 bytes; three 500-byte
transactions with distinct hashes and assigned short ids, inserted at times
10 < 11 < 12. -/
def memoryEvictionScenario : TxService :=
  let s0 := emptyService 1000 24 600
  let s1 := setTransactionContents (assignShortId s0 301 1 10) 301
    (List.replicate 500 7)
  let s2 := setTransactionContents (assignShortId s1 302 2 11) 302
    (List.replicate 500 7)
  setTransactionContents (assignShortId s2 303 3 12) 303 (List.replicate 500 7)

/-- The spec's block-confirmation scenario, start state:
`final_tx_confirmations_count = 2`, short ids 10 and 11 assigned to
transaction 201, short id 12 to 203, short id 13 to 204. -/
def blockConfirmationStart : TxService :=
  assignShortId
    (assignShortId (assignShortId (assignShortId
        (emptyService 100000 2 600) 201 10 1) 201 11 2) 203 12 3) 204 13 4

/-- The blocks tracked in the block-confirmation scenario. -/
def blockConfirmationBlocks : List (Nat × List Nat) :=
  [(1, [10, 11]), (2, [12]), (3, [13])]

/-- The block-confirmation scenario after the three
`track_seen_short_ids` calls. -/
def blockConfirmationFinal : TxService :=
  blockConfirmationBlocks.foldl (fun acc b => trackSeenShortIds acc b.1 b.2)
    blockConfirmationStart

/-- The two short-id maps agree: every short id recorded in a hash's set
maps back to that hash, and every reverse-map entry is recorded in its
hash's set (the spec's short-id injectivity invariant, both directions). -/
def SidMapsConsistent (s : TxService) : Prop :=
  (∀ p ∈ s.txCacheKeyToShortIds, ∀ sid ∈ p.2,
      odLookup sid s.shortIdToTxCacheKey = some p.1) ∧
  (∀ q ∈ s.shortIdToTxCacheKey,
      q.1 ∈ (odLookup q.2 s.txCacheKeyToShortIds).getD [])

instance (s : TxService) : Decidable (SidMapsConsistent s) := by
  unfold SidMapsConsistent
  infer_instance

/-- A service holding one assignment: short id 5 for transaction hash 7. -/
def oneAssignmentService : TxService :=
  { emptyService 1000 24 600 with
    txCacheKeyToShortIds := [(7, [5])],
    shortIdToTxCacheKey := [(5, 7)] }

end TxService

namespace Conn

/-- A fresh connection (state `CONNECTING`, no bad messages), whose
handshake whitelist is message type 1. -/
def freshConn : Conn :=
  ⟨ConnectionState.connecting, 0, [], [1], 0⟩

/-- An established connection. -/
def establishedConn : Conn :=
  ⟨⟨true, true, true, false⟩, 0, [], [1], 0⟩

/-- A connection marked for close. -/
def closedConn : Conn :=
  ⟨⟨true, true, true, true⟩, 2, [[4, 5]], [1], 0⟩

end Conn

/-- A full 21-byte v5 frame of a 12-byte type, payload length 1, whose
single payload byte is the control byte `0x01` (`VALID` set). -/
def oneMessageBuf : List Nat :=
  [255, 254, 253, 252, 112, 111, 110, 103, 0, 0, 0, 0, 0, 0, 0, 0, 1, 0, 0, 0, 1]

/-- `oneMessageBuf` followed by one extra byte `0x00` already received from
the next frame. -/
def oneMessagePlusExtraBuf : List Nat :=
  oneMessageBuf ++ [0]

/-- Validation settings with a 1000-byte transaction cap and 2000-byte
block cap. -/
def exampleSettings : MessageValidationSettings :=
  ⟨1000, 2000⟩

/-- The bytes of the `hello` command label. -/
def helloCommandBytes : List Nat :=
  [104, 101, 108, 108, 111]

/-- A version manager whose minimum supported protocol version is 1 and
whose version message command is `hello`. -/
def exampleVersionManager : VersionManagerModel :=
  ⟨1, helloCommandBytes, 28⟩

/-- A 24-byte buffer whose first frame is a v5-framed `ack` message (not the
version command). -/
def ackFirstBuf : List Nat :=
  STARTING_SEQUENCE_BYTES ++ [97, 99, 107, 0, 0, 0, 0, 0, 0, 0, 0, 0] ++
    [4, 0, 0, 0] ++ [9, 9, 9, 9]

end Bx

/-! ## Theorems -/

namespace Bx

theorem odErase_length_le (k : Nat) (l : List (Nat × α)) :
    (odErase k l).length ≤ l.length := by
  induction l with
  | nil => simp [odErase]
  | cons p rest ih =>
    simp only [odErase]
    split
    · exact Nat.le_succ_of_le ih
    · simpa using ih

theorem odLookup_of_odErase_self (k : Nat) (l : List (Nat × α)) :
    odLookup k (odErase k l) = none := by
  induction l with
  | nil => rfl
  | cons p rest ih =>
    simp only [odErase]
    split
    · exact ih
    · simp only [odLookup]
      rename_i h
      rw [if_neg h]
      exact ih

theorem odKeys_odSet (k : Nat) (v : α) (l : List (Nat × α)) :
    odKeys (odSet k v l) = if odContains k l then odKeys l else odKeys l ++ [k] := by
  induction l with
  | nil => simp [odSet, odKeys, odContains, odLookup]
  | cons p rest ih =>
    by_cases hp : p.1 = k
    · simp [odSet, odContains, odLookup, hp, odKeys]
    · simp only [odSet, odContains, odLookup, if_neg hp]
      simp only [odKeys, List.map_cons]
      simp only [odContains, odKeys] at ih
      by_cases hc : (odLookup k rest).isSome = true
      · rw [if_pos hc] at ih ⊢
        rw [ih]
      · rw [if_neg hc] at ih ⊢
        rw [ih]
        simp

theorem odSet_of_not_contains (k : Nat) (v : α) (l : List (Nat × α))
    (h : odContains k l = false) : odSet k v l = l ++ [(k, v)] := by
  induction l with
  | nil => rfl
  | cons p rest ih =>
    simp only [odContains, odLookup] at h
    simp only [odSet]
    by_cases hk : p.1 = k
    · rw [if_pos hk] at h
      simp at h
    · rw [if_neg hk] at h
      rw [if_neg hk, ih h]
      simp

theorem odErase_sublist (k : Nat) (l : List (Nat × α)) :
    (odErase k l).Sublist l := by
  induction l with
  | nil => simp [odErase]
  | cons p rest ih =>
    simp only [odErase]
    split
    · exact ih.cons p
    · exact ih.cons₂ p

theorem odKeys_nodup_odErase (k : Nat) (l : List (Nat × α))
    (h : (odKeys l).Nodup) : (odKeys (odErase k l)).Nodup := by
  have hs : (odKeys (odErase k l)).Sublist (odKeys l) :=
    (odErase_sublist k l).map Prod.fst
  exact h.sublist hs

theorem mem_odKeys_iff_odContains (a : Nat) (l : List (Nat × α)) :
    a ∈ odKeys l ↔ odContains a l = true := by
  induction l with
  | nil => simp [odKeys, odContains, odLookup]
  | cons p rest ih =>
    simp only [odKeys, List.map_cons, List.mem_cons, odContains, odLookup]
    by_cases hp : p.1 = a
    · rw [if_pos hp]
      simp [hp]
    · rw [if_neg hp]
      simp only [odContains] at ih
      constructor
      · intro hmem
        rcases hmem with hmem | hmem
        · exact absurd hmem.symm hp
        · exact ih.mp hmem
      · intro hmem
        exact Or.inr (ih.mpr hmem)

theorem odKeys_nodup_odSet (k : Nat) (v : α) (l : List (Nat × α))
    (h : (odKeys l).Nodup) : (odKeys (odSet k v l)).Nodup := by
  rw [odKeys_odSet]
  split
  · exact h
  · rename_i hc
    simp only [Bool.not_eq_true] at hc
    rw [List.nodup_append]
    refine ⟨h, List.nodup_singleton k, ?_⟩
    intro a ha hb
    simp only [List.mem_singleton] at hb
    subst hb
    rw [mem_odKeys_iff_odContains] at ha
    rw [ha] at hc
    exact absurd hc (by simp)

theorem odLookup_eq_none_of_not_mem_keys {a : Nat} {l : List (Nat × α)}
    (h : a ∉ odKeys l) : odLookup a l = none := by
  rw [mem_odKeys_iff_odContains] at h
  simp only [odContains, Bool.not_eq_true, Option.not_isSome,
    Option.isNone_iff_eq_none] at h
  exact h

theorem contentsSize_odSet (k : Nat) (v : List Nat) (l : List (Nat × List Nat)) :
    contentsSize (odSet k v l) = contentsSize l + v.length - prevContentsSize k l := by
  induction l with
  | nil => simp [odSet, contentsSize, prevContentsSize, odLookup]
  | cons p rest ih =>
    by_cases hp : p.1 = k
    · simp only [odSet, if_pos hp, contentsSize, prevContentsSize, odLookup]
      ring
    · simp only [odSet, if_neg hp, contentsSize, prevContentsSize, odLookup]
      simp only [prevContentsSize] at ih
      rw [ih]
      ring

theorem contentsSize_odErase (k : Nat) (l : List (Nat × List Nat))
    (h : (odKeys l).Nodup) :
    contentsSize (odErase k l) = contentsSize l - prevContentsSize k l := by
  induction l with
  | nil => simp [odErase, contentsSize, prevContentsSize, odLookup]
  | cons p rest ih =>
    simp only [odKeys, List.map_cons, List.nodup_cons] at h
    by_cases hp : p.1 = k
    · simp only [odErase, if_pos hp, contentsSize, prevContentsSize, odLookup]
      have hrest : odLookup k rest = none := by
        apply odLookup_eq_none_of_not_mem_keys
        rw [← hp]
        exact h.1
      have herase : odErase k rest = rest := by
        have : ∀ (m : List (Nat × List Nat)), k ∉ odKeys m → odErase k m = m := by
          intro m
          induction m with
          | nil => intro _; rfl
          | cons q qs ihq =>
            intro hm
            simp only [odKeys, List.map_cons, List.mem_cons] at hm
            push_neg at hm
            simp only [odErase]
            rw [if_neg (fun hq : q.1 = k => hm.1 hq.symm), ihq hm.2]
        apply this
        rw [← hp]
        exact h.1
      rw [herase]
      ring
    · simp only [odErase, if_neg hp, contentsSize, prevContentsSize, odLookup]
      simp only [prevContentsSize] at ih
      rw [ih h.2]
      ring

namespace TxService

theorem foldl_removeSiblingShortId_queue (sid : Nat) (sids : List Nat)
    (s : TxService) :
    (sids.foldl (removeSiblingShortId sid) s).txAssignmentExpireQueue.length ≤
      s.txAssignmentExpireQueue.length := by
  induction sids generalizing s with
  | nil => simp
  | cons d ds ih =>
    simp only [List.foldl_cons]
    refine le_trans (ih _) ?_
    simp only [removeSiblingShortId]
    split
    · exact odErase_length_le _ _
    · exact le_refl _

theorem removeTransactionByShortId_queue_le (s : TxService) (sid : Nat)
    (removeRelated : Bool) :
    (removeTransactionByShortId s sid removeRelated).txAssignmentExpireQueue.length ≤
      s.txAssignmentExpireQueue.length := by
  simp only [removeTransactionByShortId]
  refine le_trans (odErase_length_le _ _) ?_
  split
  · exact le_refl _
  · rename_i key _
    split
    · exact le_refl _
    · rename_i sids _
      split
      · split
        · exact foldl_removeSiblingShortId_queue _ _ _
        · exact foldl_removeSiblingShortId_queue _ _ _
      · exact le_refl _

theorem removeOldestFromQueue_queue_lt (s : TxService)
    (h : s.txAssignmentExpireQueue ≠ []) :
    (removeOldestFromQueue s).txAssignmentExpireQueue.length <
      s.txAssignmentExpireQueue.length := by
  simp only [removeOldestFromQueue]
  match hq : s.txAssignmentExpireQueue, h with
  | (sid, ts) :: rest, _ =>
    refine lt_of_le_of_lt (removeTransactionByShortId_queue_le _ _ _) ?_
    simp

/-! Configuration fields and the seen-in-block ring are untouched by the
short-id removal helpers. -/

theorem removeSiblingShortId_fields (sid : Nat) (s : TxService) (dup : Nat) :
    (removeSiblingShortId sid s dup).txContentMemoryLimit = s.txContentMemoryLimit ∧
    (removeSiblingShortId sid s dup).finalTxConfirmationsCount = s.finalTxConfirmationsCount ∧
    (removeSiblingShortId sid s dup).shortIdsSeenInBlock = s.shortIdsSeenInBlock := by
  simp only [removeSiblingShortId]
  split <;> exact ⟨rfl, rfl, rfl⟩

theorem foldl_removeSiblingShortId_fields (sid : Nat) (sids : List Nat)
    (s : TxService) :
    (sids.foldl (removeSiblingShortId sid) s).txContentMemoryLimit = s.txContentMemoryLimit ∧
    (sids.foldl (removeSiblingShortId sid) s).finalTxConfirmationsCount = s.finalTxConfirmationsCount ∧
    (sids.foldl (removeSiblingShortId sid) s).shortIdsSeenInBlock = s.shortIdsSeenInBlock := by
  induction sids generalizing s with
  | nil => exact ⟨rfl, rfl, rfl⟩
  | cons d ds ih =>
    simp only [List.foldl_cons]
    obtain ⟨h1, h2, h3⟩ := ih (removeSiblingShortId sid s d)
    obtain ⟨g1, g2, g3⟩ := removeSiblingShortId_fields sid s d
    exact ⟨h1.trans g1, h2.trans g2, h3.trans g3⟩

theorem removeTransactionByShortId_fields (s : TxService) (sid : Nat)
    (removeRelated : Bool) :
    (removeTransactionByShortId s sid removeRelated).txContentMemoryLimit = s.txContentMemoryLimit ∧
    (removeTransactionByShortId s sid removeRelated).finalTxConfirmationsCount = s.finalTxConfirmationsCount ∧
    (removeTransactionByShortId s sid removeRelated).shortIdsSeenInBlock = s.shortIdsSeenInBlock := by
  simp only [removeTransactionByShortId]
  split
  · exact ⟨rfl, rfl, rfl⟩
  · rename_i key _
    split
    · exact ⟨rfl, rfl, rfl⟩
    · rename_i sids _
      split
      · obtain ⟨h1, h2, h3⟩ := foldl_removeSiblingShortId_fields sid sids
          { s with shortIdToTxCacheKey := odErase sid s.shortIdToTxCacheKey }
        split <;> exact ⟨h1, h2, h3⟩
      · exact ⟨rfl, rfl, rfl⟩

theorem removeOldestFromQueue_fields (s : TxService) :
    (removeOldestFromQueue s).txContentMemoryLimit = s.txContentMemoryLimit ∧
    (removeOldestFromQueue s).finalTxConfirmationsCount = s.finalTxConfirmationsCount ∧
    (removeOldestFromQueue s).shortIdsSeenInBlock = s.shortIdsSeenInBlock := by
  simp only [removeOldestFromQueue]
  split
  · exact ⟨rfl, rfl, rfl⟩
  · exact removeTransactionByShortId_fields _ _ _

theorem memoryCleanupGo_limit (fuel : Nat) :
    ∀ (s : TxService) (count : Nat),
    (memoryCleanupGo fuel s count).1.txContentMemoryLimit = s.txContentMemoryLimit := by
  induction fuel with
  | zero => intro s count; rfl
  | succ fuel ih =>
    intro s count
    simp only [memoryCleanupGo]
    split
    · rw [ih]
      exact (removeOldestFromQueue_fields s).1
    · rfl

theorem memoryCleanupGo_post (fuel : Nat) :
    ∀ (s : TxService) (count : Nat), s.txAssignmentExpireQueue.length ≤ fuel →
    ¬ (isExceedingMemoryLimit (memoryCleanupGo fuel s count).1 = true ∧
       (memoryCleanupGo fuel s count).1.txAssignmentExpireQueue ≠ []) := by
  induction fuel with
  | zero =>
    intro s count hf
    simp only [memoryCleanupGo]
    intro hcontra
    apply hcontra.2
    have : s.txAssignmentExpireQueue.length = 0 := Nat.le_zero.mp hf
    exact List.length_eq_zero.mp this
  | succ fuel ih =>
    intro s count hf
    simp only [memoryCleanupGo]
    split
    · rename_i h
      apply ih
      have hlt := removeOldestFromQueue_queue_lt s h.2
      omega
    · rename_i h
      exact h

theorem memoryCleanupLoop_limit (s : TxService) (count : Nat) :
    (memoryCleanupLoop s count).1.txContentMemoryLimit = s.txContentMemoryLimit :=
  memoryCleanupGo_limit _ s count

theorem memoryCleanupLoop_post (s : TxService) (count : Nat) :
    ¬ (isExceedingMemoryLimit (memoryCleanupLoop s count).1 = true ∧
       (memoryCleanupLoop s count).1.txAssignmentExpireQueue ≠ []) :=
  memoryCleanupGo_post _ s count (le_refl _)

theorem removeSiblingShortId_contents (sid : Nat) (s : TxService) (dup : Nat) :
    (removeSiblingShortId sid s dup).txCacheKeyToContents = s.txCacheKeyToContents ∧
    (removeSiblingShortId sid s dup).totalTxContentsSize = s.totalTxContentsSize := by
  simp only [removeSiblingShortId]
  split <;> exact ⟨rfl, rfl⟩

theorem foldl_removeSiblingShortId_contents (sid : Nat) (sids : List Nat)
    (s : TxService) :
    (sids.foldl (removeSiblingShortId sid) s).txCacheKeyToContents = s.txCacheKeyToContents ∧
    (sids.foldl (removeSiblingShortId sid) s).totalTxContentsSize = s.totalTxContentsSize := by
  induction sids generalizing s with
  | nil => exact ⟨rfl, rfl⟩
  | cons d ds ih =>
    simp only [List.foldl_cons]
    obtain ⟨h1, h2⟩ := ih (removeSiblingShortId sid s d)
    obtain ⟨g1, g2⟩ := removeSiblingShortId_contents sid s d
    exact ⟨h1.trans g1, h2.trans g2⟩

theorem acct_erase_contents {l : List (Nat × List Nat)} {total : Int}
    (hnd : (odKeys l).Nodup) (hacct : total = contentsSize l) (key : Nat)
    (contents : List Nat) (hlk : odLookup key l = some contents) :
    (odKeys (odErase key l)).Nodup ∧
    total - contents.length = contentsSize (odErase key l) := by
  refine ⟨odKeys_nodup_odErase key l hnd, ?_⟩
  rw [contentsSize_odErase key l hnd, hacct]
  simp [prevContentsSize, hlk]

theorem removeTransactionByShortId_acct (s : TxService) (sid : Nat)
    (removeRelated : Bool) (h : AcctInv s) :
    AcctInv (removeTransactionByShortId s sid removeRelated) := by
  obtain ⟨hnd, hacct⟩ := h
  simp only [removeTransactionByShortId]
  split
  · exact ⟨hnd, hacct⟩
  · rename_i key _
    split
    · exact ⟨hnd, hacct⟩
    · rename_i sids _
      split
      · obtain ⟨h1, h2⟩ := foldl_removeSiblingShortId_contents sid sids
          { s with shortIdToTxCacheKey := odErase sid s.shortIdToTxCacheKey }
        split
        · rename_i contents hlk
          rw [h1] at hlk
          have := acct_erase_contents hnd hacct key contents hlk
          exact ⟨by simpa [ContentsNodup, h1] using this.1,
                 by simpa [Accounting, h1, h2] using this.2⟩
        · exact ⟨by simpa [ContentsNodup, h1] using hnd,
                 by simpa [Accounting, h1, h2] using hacct⟩
      · exact ⟨hnd, hacct⟩

theorem removeAssignedShortId_contents (s : TxService) (sid : Nat) :
    (removeAssignedShortId s sid).txCacheKeyToContents = s.txCacheKeyToContents ∧
    (removeAssignedShortId s sid).totalTxContentsSize = s.totalTxContentsSize :=
  ⟨rfl, rfl⟩

theorem foldl_removeAssignedShortId_contents (sids : List Nat) (s : TxService) :
    (sids.foldl removeAssignedShortId s).txCacheKeyToContents = s.txCacheKeyToContents ∧
    (sids.foldl removeAssignedShortId s).totalTxContentsSize = s.totalTxContentsSize := by
  induction sids generalizing s with
  | nil => exact ⟨rfl, rfl⟩
  | cons d ds ih =>
    simp only [List.foldl_cons]
    exact ih (removeAssignedShortId s d)

theorem removeContentsEntry_acct (s : TxService) (txHash : Nat)
    (h : AcctInv s) : AcctInv (removeContentsEntry s txHash) := by
  obtain ⟨hnd, hacct⟩ := h
  simp only [removeContentsEntry]
  split
  · rename_i contents hlk
    have := acct_erase_contents hnd hacct txHash contents hlk
    exact ⟨this.1, this.2⟩
  · exact ⟨hnd, hacct⟩

theorem removeTransactionByTxHash_acct (s : TxService) (txHash : Nat)
    (h : AcctInv s) : AcctInv (removeTransactionByTxHash s txHash).1 := by
  obtain ⟨hnd, hacct⟩ := h
  simp only [removeTransactionByTxHash]
  split
  · rename_i sids hlk
    apply removeContentsEntry_acct
    obtain ⟨h1, h2⟩ := foldl_removeAssignedShortId_contents sids
      { s with txCacheKeyToShortIds := odErase txHash s.txCacheKeyToShortIds }
    exact ⟨by simpa [ContentsNodup, h1] using hnd,
           by simpa [Accounting, h1, h2] using hacct⟩
  · exact removeContentsEntry_acct s txHash ⟨hnd, hacct⟩

theorem removeOldestFromQueue_acct (s : TxService) (h : AcctInv s) :
    AcctInv (removeOldestFromQueue s) := by
  simp only [removeOldestFromQueue]
  split
  · exact h
  · exact removeTransactionByShortId_acct _ _ _ h

theorem memoryCleanupGo_acct (fuel : Nat) :
    ∀ (s : TxService) (count : Nat), AcctInv s →
    AcctInv (memoryCleanupGo fuel s count).1 := by
  induction fuel with
  | zero => intro s count h; exact h
  | succ fuel ih =>
    intro s count h
    simp only [memoryCleanupGo]
    split
    · exact ih _ _ (removeOldestFromQueue_acct s h)
    · exact h

theorem memoryCleanupLoop_acct (s : TxService) (count : Nat) (h : AcctInv s) :
    AcctInv (memoryCleanupLoop s count).1 :=
  memoryCleanupGo_acct _ s count h

theorem clearService_acct (s : TxService) : AcctInv (clearService s) := by
  constructor
  · simp [ContentsNodup, clearService, odKeys]
  · simp [Accounting, clearService, contentsSize]

theorem acctInv_update_removed (t : TxService) (x : Nat) :
    AcctInv { t with totalTxRemovedByMemoryLimit := x } ↔ AcctInv t :=
  Iff.rfl

theorem isExceedingMemoryLimit_iff (s : TxService) :
    isExceedingMemoryLimit s = true ↔
      (s.txContentMemoryLimit : Int) < s.totalTxContentsSize := by
  simp [isExceedingMemoryLimit]

theorem memoryLimitCleanUp_acct (s : TxService) (h : AcctInv s) :
    AcctInv (memoryLimitCleanUp s) := by
  simp only [memoryLimitCleanUp]
  split
  · exact h
  · split
    · exact (acctInv_update_removed _ _).mpr (clearService_acct _)
    · exact (acctInv_update_removed _ _).mpr (memoryCleanupLoop_acct s 0 h)

theorem removeExpiredGo_acct (fuel : Nat) :
    ∀ (s : TxService) (now : Nat), AcctInv s →
    AcctInv (removeExpiredGo fuel s now) := by
  induction fuel with
  | zero => intro s now h; exact h
  | succ fuel ih =>
    intro s now h
    simp only [removeExpiredGo]
    split
    · exact h
    · split
      · exact ih _ _ (removeTransactionByShortId_acct _ _ _ h)
      · exact h

theorem removeExpiredLoop_acct (s : TxService) (now : Nat) (h : AcctInv s) :
    AcctInv (removeExpiredLoop s now) :=
  removeExpiredGo_acct _ s now h

theorem setTransactionContents_acct (s : TxService) (txHash : Nat)
    (contents : List Nat) (h : AcctInv s) :
    AcctInv (setTransactionContents s txHash contents) := by
  apply memoryLimitCleanUp_acct
  refine ⟨odKeys_nodup_odSet _ _ _ h.1, ?_⟩
  show s.totalTxContentsSize + contents.length
        - prevContentsSize txHash s.txCacheKeyToContents
      = contentsSize (odSet txHash contents s.txCacheKeyToContents)
  rw [contentsSize_odSet, h.2]

theorem assignShortId_acct (s : TxService) (txHash sid now : Nat)
    (h : AcctInv s) : AcctInv (assignShortId s txHash sid now) := by
  simp only [assignShortId]
  split
  · exact h
  · split
    · exact h
    · exact h

theorem foldl_removeRelated_acct (sids : List Nat) (s : TxService)
    (h : AcctInv s) :
    AcctInv (sids.foldl (fun acc sid => removeTransactionByShortId acc sid true) s) := by
  induction sids generalizing s with
  | nil => exact h
  | cons d ds ih => exact ih _ (removeTransactionByShortId_acct _ _ _ h)

theorem trackSeenShortIds_acct (s : TxService) (bh : Nat) (sids : List Nat)
    (h : AcctInv s) : AcctInv (trackSeenShortIds s bh sids) := by
  simp only [trackSeenShortIds]
  split
  · split
    · exact h
    · exact foldl_removeRelated_acct _ _ h
  · exact h

theorem expireOldAssignments_acct (s : TxService) (now : Nat)
    (h : AcctInv s) : AcctInv (expireOldAssignments s now).1 := by
  simp only [expireOldAssignments]
  split
  · exact removeExpiredLoop_acct s now h
  · exact removeExpiredLoop_acct s now h

theorem foldl_removeRelated_ring (sids : List Nat) (s : TxService) :
    (sids.foldl (fun acc sid => removeTransactionByShortId acc sid true) s).shortIdsSeenInBlock
      = s.shortIdsSeenInBlock ∧
    (sids.foldl (fun acc sid => removeTransactionByShortId acc sid true) s).finalTxConfirmationsCount
      = s.finalTxConfirmationsCount := by
  induction sids generalizing s with
  | nil => exact ⟨rfl, rfl⟩
  | cons d ds ih =>
    simp only [List.foldl_cons]
    obtain ⟨h1, h2⟩ := ih (removeTransactionByShortId s d true)
    obtain ⟨g1, g2, g3⟩ := removeTransactionByShortId_fields s d true
    exact ⟨h1.trans g3, h2.trans g2⟩

theorem trackSeenShortIds_ring (s : TxService) (bh : Nat) (sids : List Nat) :
    (trackSeenShortIds s bh sids).shortIdsSeenInBlock =
      ringStep s.finalTxConfirmationsCount s.shortIdsSeenInBlock (bh, sids) ∧
    (trackSeenShortIds s bh sids).finalTxConfirmationsCount =
      s.finalTxConfirmationsCount := by
  simp only [trackSeenShortIds, ringStep]
  split
  · rename_i hge
    split
    · rename_i heq
      refine ⟨?_, rfl⟩
      show odSet bh sids s.shortIdsSeenInBlock = (odSet bh sids s.shortIdsSeenInBlock).tail
      rw [heq]
      rfl
    · rename_i bh2 finalSids rest heq
      obtain ⟨h1, h2⟩ := foldl_removeRelated_ring finalSids
        { s with shortIdsSeenInBlock := rest }
      refine ⟨?_, h2⟩
      rw [h1, heq]
      rfl
  · exact ⟨rfl, rfl⟩

theorem foldl_trackSeenShortIds_ring (blocks : List (Nat × List Nat))
    (s : TxService) :
    (blocks.foldl (fun acc b => trackSeenShortIds acc b.1 b.2) s).shortIdsSeenInBlock
      = blocks.foldl (ringStep s.finalTxConfirmationsCount) s.shortIdsSeenInBlock := by
  induction blocks generalizing s with
  | nil => rfl
  | cons b bs ih =>
    simp only [List.foldl_cons]
    rw [ih (trackSeenShortIds s b.1 b.2)]
    obtain ⟨h1, h2⟩ := trackSeenShortIds_ring s b.1 b.2
    rw [h1, h2]

theorem odKeys_drop_subset (i : Nat) (l : List (Nat × α)) :
    ∀ a, a ∈ odKeys (l.drop i) → a ∈ odKeys l := by
  intro a ha
  simp only [odKeys] at ha ⊢
  exact ((List.drop_sublist i l).map Prod.fst).subset ha

theorem ringStep_fold_from_nil (c : Nat) (hc : 1 ≤ c)
    (blocks : List (Nat × List Nat)) (hnd : (odKeys blocks).Nodup) :
    blocks.foldl (ringStep c) [] = blocks.drop (blocks.length + 1 - c) := by
  induction blocks using List.reverseRecOn with
  | nil => simp
  | append_singleton bs b ih =>
    obtain ⟨bk, bv⟩ := b
    have hbsnd : (odKeys bs).Nodup := by
      simp only [odKeys, List.map_append, List.nodup_append] at hnd
      exact hnd.1
    have hbfresh : bk ∉ odKeys bs := by
      simp only [odKeys, List.map_append, List.nodup_append] at hnd
      intro hmem
      exact hnd.2.2 hmem (by simp)
    rw [List.foldl_append, ih hbsnd]
    simp only [List.foldl_cons, List.foldl_nil, ringStep]
    have hfresh2 : odContains bk (bs.drop (bs.length + 1 - c)) = false := by
      rw [← Bool.not_eq_true, ← mem_odKeys_iff_odContains]
      intro hmem
      exact hbfresh (odKeys_drop_subset _ _ _ hmem)
    rw [odSet_of_not_contains _ _ _ hfresh2]
    have hdranged : bs.length + 1 - c ≤ bs.length := by omega
    have happ : bs.drop (bs.length + 1 - c) ++ [(bk, bv)]
        = (bs ++ [(bk, bv)]).drop (bs.length + 1 - c) := by
      rw [List.drop_append_of_le_length hdranged]
    have hlen : (bs.drop (bs.length + 1 - c) ++ [(bk, bv)]).length
        = bs.length - (bs.length + 1 - c) + 1 := by
      simp
    by_cases hge : c ≤ bs.length + 1
    · rw [if_pos (by rw [hlen]; omega)]
      rw [happ, List.tail_drop]
      congr 1
      simp only [List.length_append, List.length_cons, List.length_nil]
      omega
    · rw [if_neg (by rw [hlen]; omega)]
      rw [happ]
      congr 1
      simp only [List.length_append, List.length_cons, List.length_nil]
      omega

theorem memoryLimitCleanUp_budget (s : TxService) :
    (memoryLimitCleanUp s).totalTxContentsSize ≤
      ((memoryLimitCleanUp s).txContentMemoryLimit : Int) := by
  simp only [memoryLimitCleanUp]
  split
  · rename_i h
    rw [isExceedingMemoryLimit_iff] at h
    exact not_lt.mp h
  · rename_i h
    have hpost := memoryCleanupLoop_post s 0
    split
    · rename_i hcl
      show (clearService (memoryCleanupLoop s 0).1).totalTxContentsSize ≤
        ((clearService (memoryCleanupLoop s 0).1).txContentMemoryLimit : Int)
      simp [clearService]
    · rename_i hcl
      show (memoryCleanupLoop s 0).1.totalTxContentsSize ≤
        ((memoryCleanupLoop s 0).1.txContentMemoryLimit : Int)
      by_cases hex : isExceedingMemoryLimit (memoryCleanupLoop s 0).1 = true
      · exfalso
        rcases Classical.em
            ((memoryCleanupLoop s 0).1.txAssignmentExpireQueue = []) with he | he
        · exact hcl ⟨hex, he⟩
        · exact hpost ⟨hex, he⟩
      · rw [isExceedingMemoryLimit_iff] at hex
        exact not_lt.mp hex

end TxService

end Bx

namespace Bx

theorem odLookup_odSet_self (k : Nat) (v : α) (l : List (Nat × α)) :
    odLookup k (odSet k v l) = some v := by
  induction l with
  | nil => simp [odSet, odLookup]
  | cons p rest ih =>
    simp only [odSet]
    split
    · simp [odLookup]
    · rename_i h
      simp only [odLookup]
      rw [if_neg h]
      exact ih

theorem odLookup_mem {k : Nat} {v : α} {l : List (Nat × α)}
    (h : odLookup k l = some v) : (k, v) ∈ l := by
  induction l with
  | nil => simp [odLookup] at h
  | cons p rest ih =>
    simp only [odLookup] at h
    split at h
    · rename_i hp
      obtain ⟨a, b⟩ := p
      simp only at hp
      cases h
      subst hp
      exact List.mem_cons_self _ _
    · exact List.mem_cons_of_mem _ (ih h)

/-- C8: `assign_short_id(tx_hash, 0)` leaves the whole service state
unchanged: nothing is added to the three maps or the expiration queue, no
counter changes, and no alarm is registered (`short_id == 0` is
`NULL_TX_SID` and is refused with only a warning log). -/
theorem assign_null_short_id_noop (s : TxService) (txHash now : Nat) :
    TxService.assignShortId s txHash 0 now = s := by
  simp [TxService.assignShortId, NULL_TX_SID]

/-- C5 counterexample: after `add(a); add(b); add(a)` with `a = 0`, `b = 1`,
the queue still iterates `a` before `b` (a Python `OrderedDict` assignment
to an existing key does not move it), while the latest timestamp is
recorded; the claimed iteration order `[b, a]` is wrong. -/
theorem expiration_queue_readd_order_counterexample :
    ((((⟨60, []⟩ : ExpirationQueueModel).add 0 100).add 1 101).add 0 102).queue
        = [(0, 102), (1, 101)] ∧
    ¬ ((((⟨60, []⟩ : ExpirationQueueModel).add 0 100).add 1 101).add 0 102).iterationOrder
        = [1, 0] := by
  decide

/-- C5 amended: `add(x)` records the given time as `x`'s timestamp,
overwriting any prior timestamp, and iteration order equals the order of
each present key's FIRST insertion: a re-added key keeps its position, and
only a key not already present is appended at the back. -/
theorem expiration_queue_add_spec (q : ExpirationQueueModel) (item now : Nat) :
    odLookup item (q.add item now).queue = some now ∧
    (q.add item now).iterationOrder =
      (if odContains item q.queue then q.iterationOrder
       else q.iterationOrder ++ [item]) := by
  constructor
  · exact odLookup_odSet_self item now q.queue
  · simpa [ExpirationQueueModel.add, ExpirationQueueModel.iterationOrder]
      using odKeys_odSet item now q.queue

/-- C6 counterexample: for a hash with no short-id assignments,
`get_short_ids` returns the singleton `{NULL_TX_SID}` (= `{0}`), not the
empty set. -/
theorem get_short_ids_unassigned_counterexample :
    TxService.getShortIds (TxService.emptyService 1000 24 600) 42 = [NULL_TX_SID] ∧
    TxService.getShortIds (TxService.emptyService 1000 24 600) 42 ≠ [] := by
  decide

/-- C6 amended: when the two short-id maps are mutually consistent,
`get_short_ids(tx_hash)` returns exactly the set of short ids currently
assigned to the hash when the hash has an entry (membership coincides with
the reverse map), and returns `{NULL_TX_SID}` for a hash with no
assignments. -/
theorem get_short_ids_returns_assignments (s : TxService)
    (hs : TxService.SidMapsConsistent s) (txHash : Nat) :
    (odLookup txHash s.txCacheKeyToShortIds = none →
      TxService.getShortIds s txHash = [NULL_TX_SID]) ∧
    (∀ sids, odLookup txHash s.txCacheKeyToShortIds = some sids →
      TxService.getShortIds s txHash = sids ∧
      ∀ sid, sid ∈ sids ↔ odLookup sid s.shortIdToTxCacheKey = some txHash) := by
  constructor
  · intro hnone
    simp [TxService.getShortIds, hnone]
  · intro sids hsome
    constructor
    · simp [TxService.getShortIds, hsome]
    · intro sid
      constructor
      · intro hmem
        exact hs.1 (txHash, sids) (odLookup_mem hsome) sid hmem
      · intro hrev
        have hq := hs.2 (sid, txHash) (odLookup_mem hrev)
        simpa [hsome] using hq

/-- Witness for C6: in a service where short id 5 is assigned to hash 7,
`get_short_ids(7)` returns exactly `{5}` and membership agrees with the
reverse map. -/
theorem get_short_ids_returns_assignments_witness :
    TxService.getShortIds TxService.oneAssignmentService 7 = [5] ∧
    (5 ∈ ([5] : List Nat) ↔
      odLookup 5 TxService.oneAssignmentService.shortIdToTxCacheKey = some 7) :=
  ⟨((get_short_ids_returns_assignments TxService.oneAssignmentService
      (by decide) 7).2 [5] rfl).1,
   ((get_short_ids_returns_assignments TxService.oneAssignmentService
      (by decide) 7).2 [5] rfl).2 5⟩

/-- C9: once a connection's state includes `MARK_FOR_CLOSE`, `enqueue_msg`
and `enqueue_msg_bytes` return without modifying the output buffer (or
anything else), and `process_message` returns without consuming input or
dispatching any handler. -/
theorem mark_for_close_halts_io (c : Conn) (h : c.state.markForClose = true) :
    (∀ msgBytes prepend, Conn.enqueueMsg c msgBytes prepend = c) ∧
    (∀ msgBytes prepend, Conn.enqueueMsgBytes c msgBytes prepend = c) ∧
    (∀ handler evs, Conn.processEvents handler c evs = (c, [])) := by
  refine ⟨fun b p => ?_, fun b p => ?_, fun handler evs => ?_⟩
  · simp [Conn.enqueueMsg, Conn.enqueueMsgBytes, h]
  · simp [Conn.enqueueMsgBytes, h]
  · rw [Conn.processEvents.eq_def]
    simp [h]

/-- Witness for C9: a concrete closed connection neither enqueues bytes nor
processes a pending valid message. -/
theorem mark_for_close_halts_io_witness :
    Conn.enqueueMsgBytes Conn.closedConn [1, 2] false = Conn.closedConn ∧
    Conn.processEvents (fun _ x => x) Conn.closedConn [MsgEvent.valid 1]
      = (Conn.closedConn, []) :=
  ⟨(mark_for_close_halts_io Conn.closedConn (by decide)).2.1 [1, 2] false,
   (mark_for_close_halts_io Conn.closedConn (by decide)).2.2 (fun _ x => x)
     [MsgEvent.valid 1]⟩

end Bx

namespace Bx

theorem processEvents_nil (handler : Nat → Conn → Conn) (c : Conn) :
    Conn.processEvents handler c [] = (c, []) := by
  rw [Conn.processEvents]
  by_cases h : c.state.markForClose = true
  · rw [if_pos h]
  · rw [if_neg h]

theorem processEvents_throttled_step (handler : Nat → Conn → Conn) (c : Conn)
    (e : MsgEvent) (rest : List MsgEvent)
    (hc : c.state.markForClose = false) (ht : Conn.throttled e) :
    Conn.processEvents handler c (e :: rest) =
      if c.numBadMessages = MAX_BAD_MESSAGES then
        ({ c with state := c.state.withMarkForClose }, [])
      else
        Conn.processEvents handler
          { c with numBadMessages := c.numBadMessages + 1 } rest := by
  rcases ht with h | h | h <;> subst h <;>
  · rw [Conn.processEvents.eq_def]
    simp only [hc, Bool.false_eq_true, if_false, Conn.reportBadMessage]
    by_cases hm : c.numBadMessages = MAX_BAD_MESSAGES
    · simp [hm]
    · simp [hm]

/-- C1 counterexample: a connection with a zeroed bad-message counter that
suffers exactly `MAX_BAD_MESSAGES`(= 3) consecutive parse/validation
failures is NOT yet marked for close upon handling the third failure, and a
further inbound message IS still dispatched (the code closes only on the
failure after the counter has already reached 3). -/
theorem bad_message_close_counterexample :
    (Conn.processEvents (fun _ x => x) Conn.establishedConn
        [.parseFailure, .invalidFull, .unauthorized, .incomplete]).1.state.markForClose
      = false ∧
    (Conn.processEvents (fun _ x => x) Conn.establishedConn
        [.parseFailure, .invalidFull, .unauthorized, .valid 2]).2 = [2] := by
  decide

/-- C1 amended: starting from a zeroed counter, `MAX_BAD_MESSAGES + 1` (= 4)
consecutive parse/validation failures mark the connection for close — the
connection closes upon handling the fourth consecutive failure, not the
third — and from that point no further inbound message is dispatched; three
consecutive failures only drive the counter to 3 without closing, and a
successfully processed message resets the counter to 0. -/
theorem bad_message_close_on_fourth_failure (handler : Nat → Conn → Conn)
    (c : Conn) (e1 e2 e3 e4 : MsgEvent) (rest : List MsgEvent)
    (hc : c.state.markForClose = false) (hn : c.numBadMessages = 0)
    (h1 : Conn.throttled e1) (h2 : Conn.throttled e2) (h3 : Conn.throttled e3)
    (h4 : Conn.throttled e4) :
    ((Conn.processEvents handler c (e1 :: e2 :: e3 :: e4 :: rest)).1.state.markForClose
        = true ∧
     (Conn.processEvents handler c (e1 :: e2 :: e3 :: e4 :: rest)).2 = []) ∧
    ((Conn.processEvents handler c [e1, e2, e3]).1.state.markForClose = false ∧
     (Conn.processEvents handler c [e1, e2, e3]).1.numBadMessages
        = MAX_BAD_MESSAGES) ∧
    (∀ c2 : Conn, c2.state.markForClose = false → c2.state.established = true →
      ∀ t, (Conn.processEvents handler c2 [MsgEvent.valid t]).1.numBadMessages = 0) := by
  obtain ⟨st, nb, ob, hts, hstt⟩ := c
  simp only at hc hn
  subst hn
  refine ⟨?_, ?_, ?_⟩
  · rcases h1 with rfl | rfl | rfl <;> rcases h2 with rfl | rfl | rfl <;>
      rcases h3 with rfl | rfl | rfl <;> rcases h4 with rfl | rfl | rfl <;>
      simp [Conn.processEvents, hc, Conn.reportBadMessage, MAX_BAD_MESSAGES,
        ConnectionState.withMarkForClose]
  · rcases h1 with rfl | rfl | rfl <;> rcases h2 with rfl | rfl | rfl <;>
      rcases h3 with rfl | rfl | rfl <;>
      simp [Conn.processEvents, hc, Conn.reportBadMessage, MAX_BAD_MESSAGES,
        ConnectionState.withMarkForClose]
  · intro c2 hc2 hest t
    simp [Conn.processEvents, hc2, hest]

/-- Witness for C1 (amended): a fresh connection fed four consecutive parse
failures. -/
theorem bad_message_close_on_fourth_failure_witness :
    ((Conn.processEvents (fun _ x => x) Conn.freshConn
        (.parseFailure :: .parseFailure :: .parseFailure :: .parseFailure :: [])).1.state.markForClose
        = true ∧
     (Conn.processEvents (fun _ x => x) Conn.freshConn
        (.parseFailure :: .parseFailure :: .parseFailure :: .parseFailure :: [])).2 = []) ∧
    ((Conn.processEvents (fun _ x => x) Conn.freshConn
        [.parseFailure, .parseFailure, .parseFailure]).1.state.markForClose = false ∧
     (Conn.processEvents (fun _ x => x) Conn.freshConn
        [.parseFailure, .parseFailure, .parseFailure]).1.numBadMessages
        = MAX_BAD_MESSAGES) ∧
    (∀ c2 : Conn, c2.state.markForClose = false → c2.state.established = true →
      ∀ t, (Conn.processEvents (fun _ x => x) c2
        [MsgEvent.valid t]).1.numBadMessages = 0) :=
  bad_message_close_on_fourth_failure (fun _ x => x) Conn.freshConn
    .parseFailure .parseFailure .parseFailure .parseFailure [] rfl rfl
    (by decide) (by decide) (by decide) (by decide)

end Bx

namespace Bx

/-- C2 counterexample: with `final_tx_confirmations_count = 2`, after
`2 + k` calls (`k = 1`) of `track_seen_short_ids` with distinct block
hashes, the ring holds a single block: TWO blocks were evicted (`H1` and
`H2`), not exactly `k = 1` — eviction starts already at call number
`final_tx_confirmations_count`, because the head is popped as soon as the
length reaches the bound after insertion. -/
theorem ring_eviction_counterexample :
    TxService.blockConfirmationFinal.shortIdsSeenInBlock = [(3, [13])] ∧
    TxService.blockConfirmationFinal.shortIdsSeenInBlock ≠ [(2, [12]), (3, [13])] := by
  decide

/-- C2 amended: starting from an empty ring, after
`final_tx_confirmations_count + k` calls of `track_seen_short_ids` with
distinct block hashes, exactly `k + 1` blocks (the `k + 1` oldest, in FIFO
order) have been evicted, so the ring retains the final
`final_tx_confirmations_count - 1` blocks; each eviction removes the
evicted block's short ids with `remove_related=true` (on the concrete
scenario: short ids 10, 11 and 12 are gone from the reverse map and the
expiration queue, 13 remains). -/
theorem ring_eviction_fifo (s : TxService) (blocks : List (Nat × List Nat))
    (k : Nat)
    (hring : s.shortIdsSeenInBlock = [])
    (hc : 1 ≤ s.finalTxConfirmationsCount)
    (hnd : (odKeys blocks).Nodup)
    (hlen : blocks.length = s.finalTxConfirmationsCount + k) :
    (blocks.foldl (fun acc b => TxService.trackSeenShortIds acc b.1 b.2) s).shortIdsSeenInBlock
      = blocks.drop (k + 1) ∧
    odKeys TxService.blockConfirmationFinal.shortIdToTxCacheKey = [13] ∧
    odKeys TxService.blockConfirmationFinal.txAssignmentExpireQueue = [13] := by
  refine ⟨?_, by decide, by decide⟩
  rw [TxService.foldl_trackSeenShortIds_ring, hring,
    TxService.ringStep_fold_from_nil _ hc _ hnd, hlen]
  congr 1
  omega

/-- Witness for C2 (amended): the spec's block-confirmation scenario with
`final_tx_confirmations_count = 2` and three tracked blocks (`k = 1`):
two blocks evicted, only the newest one retained. -/
theorem ring_eviction_fifo_witness :
    (TxService.blockConfirmationBlocks.foldl
        (fun acc b => TxService.trackSeenShortIds acc b.1 b.2)
        TxService.blockConfirmationStart).shortIdsSeenInBlock
      = TxService.blockConfirmationBlocks.drop (1 + 1) ∧
    odKeys TxService.blockConfirmationFinal.shortIdToTxCacheKey = [13] ∧
    odKeys TxService.blockConfirmationFinal.txAssignmentExpireQueue = [13] :=
  ring_eviction_fifo TxService.blockConfirmationStart
    TxService.blockConfirmationBlocks 1 (by decide) (by decide) (by decide)
    (by decide)

set_option maxRecDepth 20000 in
/-- C3: after every `set_transaction_contents` call returns (which ends in
`_memory_limit_clean_up`), `total_tx_contents_size` is at most
`tx_content_memory_limit`; in the spec's concrete scenario (limit 1000,
three 500-byte transactions with distinct hashes and assigned short ids
inserted at `t0 < t1 < t2`), the third insertion evicts exactly the oldest
(`t0`) record (hash 301 / short id 1) and the total is exactly 1000. -/
theorem memory_limit_budget :
    (∀ (s : TxService) (txHash : Nat) (contents : List Nat),
      (TxService.setTransactionContents s txHash contents).totalTxContentsSize ≤
        ((TxService.setTransactionContents s txHash contents).txContentMemoryLimit : Int)) ∧
    (TxService.memoryEvictionScenario.totalTxContentsSize = 1000 ∧
     odKeys TxService.memoryEvictionScenario.txCacheKeyToContents = [302, 303] ∧
     odContains 301 TxService.memoryEvictionScenario.txCacheKeyToContents = false ∧
     odContains 1 TxService.memoryEvictionScenario.shortIdToTxCacheKey = false ∧
     odKeys TxService.memoryEvictionScenario.txAssignmentExpireQueue = [2, 3] ∧
     TxService.memoryEvictionScenario.totalTxRemovedByMemoryLimit = 1) := by
  constructor
  · intro s txHash contents
    exact TxService.memoryLimitCleanUp_budget _
  · decide

/-- C4: the content-byte accounting invariant — `total_tx_contents_size`
equals the sum of `len(contents)` over the `tx_cache_key → contents` map
(with pairwise-distinct keys) — is preserved by every
`TransactionService` operation: `assign_short_id`,
`set_transaction_contents`, `remove_transaction_by_tx_hash`,
`remove_transaction_by_short_id`, `track_seen_short_ids`,
`expire_old_assignments` and `_memory_limit_clean_up`. -/
theorem tx_service_accounting (s : TxService) (hs : TxService.AcctInv s) :
    (∀ txHash sid now, TxService.AcctInv (TxService.assignShortId s txHash sid now)) ∧
    (∀ txHash contents, TxService.AcctInv (TxService.setTransactionContents s txHash contents)) ∧
    (∀ txHash, TxService.AcctInv (TxService.removeTransactionByTxHash s txHash).1) ∧
    (∀ sid removeRelated, TxService.AcctInv (TxService.removeTransactionByShortId s sid removeRelated)) ∧
    (∀ blockHash sids, TxService.AcctInv (TxService.trackSeenShortIds s blockHash sids)) ∧
    (∀ now, TxService.AcctInv (TxService.expireOldAssignments s now).1) ∧
    TxService.AcctInv (TxService.memoryLimitCleanUp s) :=
  ⟨fun txHash sid now => TxService.assignShortId_acct s txHash sid now hs,
   fun txHash contents => TxService.setTransactionContents_acct s txHash contents hs,
   fun txHash => TxService.removeTransactionByTxHash_acct s txHash hs,
   fun sid removeRelated => TxService.removeTransactionByShortId_acct s sid removeRelated hs,
   fun blockHash sids => TxService.trackSeenShortIds_acct s blockHash sids hs,
   fun now => TxService.expireOldAssignments_acct s now hs,
   TxService.memoryLimitCleanUp_acct s hs⟩

/-- Witness for C4: the invariant holds after concrete operations on a
service holding one assignment. -/
theorem tx_service_accounting_witness :
    TxService.AcctInv (TxService.assignShortId TxService.oneAssignmentService 9 6 50) ∧
    TxService.AcctInv (TxService.setTransactionContents TxService.oneAssignmentService 9 [1, 2, 3]) :=
  ⟨(tx_service_accounting TxService.oneAssignmentService (by decide)).1 9 6 50,
   (tx_service_accounting TxService.oneAssignmentService (by decide)).2.1 9 [1, 2, 3]⟩

end Bx

namespace Bx

/-- C7 counterexample: a buffer holding a full framed message whose final
control byte (at offset `header_len + payload_len - 1 = 20`) has the
`VALID` bit set, followed by one extra byte `0x00` from the next frame:
`validate` nevertheless raises the control-flags error, because the check
reads `input_buffer[-1:]` — the last byte of the whole buffer — rather than
the message's own control byte. -/
theorem control_flags_extra_bytes_counterexample :
    oneMessagePlusExtraBuf.getD (20 + 1 - 1) 0 &&& VALID_CONTROL_FLAG = 1 ∧
    bloxrouteValidate 5 exampleSettings true (some (.other 0)) 20 (some 1)
        oneMessagePlusExtraBuf
      = .error .controlFlagsNotValid :=
  ⟨by decide, rfl⟩

/-- C7 amended: for protocol version > 4 with `is_full_msg` true, when the
input buffer holds exactly the current framed message
(`buf.length = header_len + payload_len`), and the starting-sequence and
payload-length checks pass, `validate` raises the control-flags error
exactly when the message's final control byte (offset
`header_len + payload_len - 1`) lacks the `VALID` bit, and succeeds when
that bit is set. For buffers holding additional bytes beyond the current
message the check instead reads the buffer's last byte (see the
counterexample). -/
theorem control_flags_validation (v : Nat) (settings : MessageValidationSettings)
    (msgType : Option BxMsgType) (headerLen plen : Nat) (buf : List Nat)
    (hv : 4 < v)
    (hexact : buf.length = headerLen + plen)
    (hpos : 1 ≤ headerLen + plen)
    (hseq : validateStartingSequence buf = .ok ())
    (hpl : validatePayloadLength settings msgType (some plen) = .ok ()) :
    (bloxrouteValidate v settings true msgType headerLen (some plen) buf
        = .error .controlFlagsNotValid
      ↔ buf.getD (headerLen + plen - 1) 1 &&& VALID_CONTROL_FLAG = 0) ∧
    (buf.getD (headerLen + plen - 1) 1 &&& VALID_CONTROL_FLAG ≠ 0 →
      bloxrouteValidate v settings true msgType headerLen (some plen) buf
        = .ok ()) := by
  have hidx : buf.length - 1 = headerLen + plen - 1 := by omega
  have hlt : headerLen + plen - 1 < buf.length := by omega
  have hlast : buf.getLast? = some (buf.getD (headerLen + plen - 1) 1) := by
    rw [List.getLast?_eq_getElem?, hidx, List.getElem?_eq_getElem hlt,
      List.getD_eq_getElem?_getD, List.getElem?_eq_getElem hlt]
    rfl
  have hred : bloxrouteValidate v settings true msgType headerLen (some plen) buf
      = (if buf.getD (headerLen + plen - 1) 1 &&& VALID_CONTROL_FLAG ≠ 0
         then Except.ok () else Except.error ValidationFailure.controlFlagsNotValid) := by
    have hnl : ¬ (buf.length < headerLen + plen) := by omega
    simp only [bloxrouteValidate, STARTING_SEQUENCE_CONTROL_FLAGS_FIRST_VERSION,
      if_pos hv, hseq, hpl, validateControlFlags, hlast, hnl, if_false]
    rfl
  rw [hred]
  by_cases hb : buf.getD (headerLen + plen - 1) 1 &&& VALID_CONTROL_FLAG = 0 <;>
    simp [hb]

/-- Witness for C7 (amended): the single-message buffer with `VALID` set
passes validation. -/
theorem control_flags_validation_witness :
    ((bloxrouteValidate 5 exampleSettings true (some (.other 0)) 20 (some 1)
          oneMessageBuf
        = .error .controlFlagsNotValid
      ↔ oneMessageBuf.getD (20 + 1 - 1) 1 &&& VALID_CONTROL_FLAG = 0) ∧
     (oneMessageBuf.getD (20 + 1 - 1) 1 &&& VALID_CONTROL_FLAG ≠ 0 →
      bloxrouteValidate 5 exampleSettings true (some (.other 0)) 20 (some 1)
          oneMessageBuf
        = .ok ())) :=
  control_flags_validation 5 exampleSettings (some (.other 0)) 20 1
    oneMessageBuf (by decide) (by decide) (by decide) rfl rfl

/-- C10: `get_connection_protocol_version` returns `None` whenever the
input buffer holds fewer than
`STARTING_SEQUENCE_BYTES_LEN + BX_HDR_COMMON_OFF + VERSION_NUM_LEN` (= 24)
bytes; and when the first framed message's command is not the version
message command, it returns `MIN_SUPPORTED_PROTOCOL_VERSION - 1`, for which
`is_protocol_supported` is false — such a peer is always classified as
unsupported. -/
theorem get_connection_protocol_version_spec (vm : VersionManagerModel)
    (buf : List Nat) :
    STARTING_SEQUENCE_BYTES_LEN + BX_HDR_COMMON_OFF + VERSION_NUM_LEN = 24 ∧
    (buf.length < 24 → vm.getConnectionProtocolVersion buf = none) ∧
    (24 ≤ buf.length →
      VersionManagerModel.firstFrameCommand buf ≠ vm.versionMessageCommand →
      vm.getConnectionProtocolVersion buf
          = some (vm.minSupportedProtocolVersion - 1) ∧
      vm.isProtocolSupported (vm.minSupportedProtocolVersion - 1) = false) := by
  refine ⟨rfl, ?_, ?_⟩
  · intro hlen
    simp only [VersionManagerModel.getConnectionProtocolVersion]
    rw [if_pos]
    exact hlen
  · intro hlen hcmd
    simp only [VersionManagerModel.getConnectionProtocolVersion]
    rw [if_neg (by exact not_lt.mpr hlen)]
    rw [if_pos hcmd]
    refine ⟨rfl, ?_⟩
    simp only [VersionManagerModel.isProtocolSupported, ge_iff_le,
      decide_eq_false_iff_not, not_le]
    omega

/-- Witness for C10: a 3-byte buffer yields `None`; a 24-byte buffer whose
first frame is an `ack` yields version 0, which is unsupported. -/
theorem get_connection_protocol_version_spec_witness :
    VersionManagerModel.getConnectionProtocolVersion exampleVersionManager
        [1, 2, 3] = none ∧
    (VersionManagerModel.getConnectionProtocolVersion exampleVersionManager
        ackFirstBuf
          = some (exampleVersionManager.minSupportedProtocolVersion - 1) ∧
     exampleVersionManager.isProtocolSupported
        (exampleVersionManager.minSupportedProtocolVersion - 1) = false) :=
  ⟨(get_connection_protocol_version_spec exampleVersionManager [1, 2, 3]).2.1
      (by decide),
   (get_connection_protocol_version_spec exampleVersionManager ackFirstBuf).2.2
      (by decide) (by decide)⟩

end Bx
